import Mathlib

/-!
Shallow embedding of the Unexplore-Himalayas client code
(src/services/authService.ts, src/services/customerService.ts,
src/services/adminService.ts, the package service, the admin panel
component and src/App.tsx) together with theorems settling the frozen
claims about it.

JS strings under manipulation are modelled as `List Char`; fixed literals
that are only compared for equality stay `String`.
-/

namespace JsStr

/-- JS String.prototype.toLowerCase applied per character (ASCII range,
which is all the source ever feeds it). -/
def jsToLower (s : List Char) : List Char := s.map Char.toLower

/-- JS String.prototype.split with a one-character separator: splits on
every occurrence, keeping empty pieces (so a trailing separator yields a
trailing empty piece). -/
def splitOnChar (c : Char) : List Char → List (List Char)
  | [] => [[]]
  | x :: xs =>
    let r := splitOnChar c xs
    if x = c then [] :: r
    else
      match r with
      | [] => [[x]]
      | y :: ys => (x :: y) :: ys

/-- JS String.prototype.trim: drop whitespace from both ends. -/
def jsTrim (s : List Char) : List Char :=
  ((s.dropWhile Char.isWhitespace).reverse.dropWhile Char.isWhitespace).reverse

theorem splitOnChar_ne_nil (c : Char) (s : List Char) : splitOnChar c s ≠ [] := by
  cases s with
  | nil => simp [splitOnChar]
  | cons x xs =>
    simp only [splitOnChar]
    split
    · simp
    · cases h : splitOnChar c xs <;> simp

end JsStr

namespace AuthService

open JsStr

/-- The character class [a-z0-9] of the regex in getEmailFromUsername
(src/services/authService.ts line 11). -/
def isLowerAlnum (c : Char) : Bool := ('a' ≤ c && c ≤ 'z') || ('0' ≤ c && c ≤ '9')

/-- JS .replace of every character outside [a-z0-9] with the empty string:
keep exactly the [a-z0-9] characters. -/
def stripNonAlnum (s : List Char) : List Char := s.filter isLowerAlnum

/-- getEmailFromUsername (src/services/authService.ts line 11):
username.toLowerCase(), then the regex replace, then the fixed suffix. -/
def getEmailFromUsername (username : List Char) : List Char :=
  stripNonAlnum (jsToLower username) ++ "@unexplore.com".toList

/-- RegisterData (src/services/authService.ts lines 13-19). -/
structure RegisterData where
  username : List Char
  password : List Char
  full_name : List Char
  address : List Char
  phone : List Char

/-- The email signUpUser passes to supabase.auth.signUp
(src/services/authService.ts line 22). -/
def signUpEmail (d : RegisterData) : List Char := getEmailFromUsername d.username

/-- The email signInUser passes to supabase.auth.signInWithPassword
(src/services/authService.ts line 73). -/
def signInEmail (username : List Char) : List Char := getEmailFromUsername username

end AuthService

namespace AdminService

/-- checkAuth (src/services/adminService.ts lines 20-22): literal
comparison against the fixed pair. -/
def checkAuth (u p : String) : Bool := u == "admin" && p == "himalayas123"

/-- Browser localStorage restricted to the single key AUTH_KEY
('unexplore_admin_session') that adminService touches; the field holds the
value stored under that key, if any. -/
structure LocalStorage where
  authKeyValue : Option String
deriving DecidableEq

/-- isAuthenticated (src/services/adminService.ts lines 24-26). -/
def isAuthenticated (ls : LocalStorage) : Bool := ls.authKeyValue == some "true"

/-- login (src/services/adminService.ts lines 28-30): sets AUTH_KEY to
the string 'true'. -/
def login (_ls : LocalStorage) : LocalStorage := ⟨some "true"⟩

/-- logout (src/services/adminService.ts lines 32-34): removes AUTH_KEY. -/
def logout (_ls : LocalStorage) : LocalStorage := ⟨none⟩

end AdminService

namespace PackageService

/-- One entry of THEME_MAP: the style bundle for a theme key. -/
structure ThemeStyle where
  color : String
  accent : String
deriving DecidableEq

/-- THEME_MAP (package service lines 20-24), as lookup over its own three
keys; any other key resolves to nothing. -/
def THEME_MAP (key : String) : Option ThemeStyle :=
  if key = "white" then some ⟨"white", "bg-white/5"⟩
  else if key = "teal" then some ⟨"teal", "bg-[#4fb7b3]/10 border-[#4fb7b3]/50"⟩
  else if key = "periwinkle" then some ⟨"periwinkle", "bg-[#637ab9]/10 border-[#637ab9]/50"⟩
  else none

/-- PackageInput (package service lines 11-17); the theme field is kept as
a plain string so the runtime fallback in savePackage is observable. -/
structure PackageInput where
  id : Option String
  name : String
  price : String
  theme : String
  features : List String

/-- The row payload savePackage submits (package service lines 75-83):
styles is THEME_MAP[pkg.theme] with THEME_MAP.white as fallback; color
stores the simple key, accent the style bundle's class string. -/
structure PackagePayload where
  name : String
  price : String
  features : List String
  color : String
  accent : String
deriving DecidableEq

/-- Payload construction inside savePackage (package service lines 75-83). -/
def savePackagePayload (pkg : PackageInput) : PackagePayload :=
  let styles := (THEME_MAP pkg.theme).getD ⟨"white", "bg-white/5"⟩
  { name := pkg.name, price := pkg.price, features := pkg.features,
    color := pkg.theme, accent := styles.accent }

end PackageService

namespace AdminPanel

open JsStr
open AdminService

/-- The admin panel component state touched by handleLogin: the browser
storage, the isLoggedIn flag and the inline error message. -/
structure PanelState where
  storage : LocalStorage
  isLoggedIn : Bool
  error : String
deriving DecidableEq

/-- handleLogin (admin panel component lines 109-119): on checkAuth
success call login(), set isLoggedIn, clear the error; otherwise only set
the error message. -/
def handleLogin (username password : String) (s : PanelState) : PanelState :=
  if checkAuth username password then
    { storage := login s.storage, isLoggedIn := true, error := "" }
  else
    { s with error := "Invalid credentials" }

/-- handlePkgFeaturesChange (admin panel component): the textarea value
split on newline. -/
def handlePkgFeaturesChange (text : List Char) : List (List Char) :=
  splitOnChar '\n' text

/-- cleanFeatures inside handlePkgSave: features.filter of lines whose
trim is nonempty. -/
def cleanFeatures (features : List (List Char)) : List (List Char) :=
  features.filter (fun f => !(jsTrim f).isEmpty)

/-- The feature list savePackage receives for a given textarea text:
handlePkgFeaturesChange stores the split, handlePkgSave filters it. -/
def parsedFeatures (text : List Char) : List (List Char) :=
  cleanFeatures (handlePkgFeaturesChange text)

end AdminPanel

namespace AdminService

/-- BookingData (src/types.ts lines 48-55). -/
structure BookingData where
  name : String
  phone : String
  travelers : Nat
  date : String
  package : String
  notes : String
deriving DecidableEq

/-- The row payload createBooking submits
(src/services/adminService.ts lines 40-53): the form fields, status fixed
to 'pending', an empty email, and user_id only when a user id was given. -/
structure BookingPayload where
  name : String
  phone : String
  travelers : Nat
  date : String
  package : String
  notes : String
  status : String
  email : String
  user_id : Option String
deriving DecidableEq

/-- Payload construction inside createBooking
(src/services/adminService.ts lines 40-53). -/
def bookingPayload (data : BookingData) (userId : Option String) : BookingPayload :=
  { name := data.name, phone := data.phone, travelers := data.travelers,
    date := data.date, package := data.package, notes := data.notes,
    status := "pending", email := "", user_id := userId }

/-- Outcome of one backend insert call: success, an error value returned,
or the call throwing. -/
inductive InsertOutcome where
  | ok : InsertOutcome
  | err : InsertOutcome
  | thrown : InsertOutcome
deriving DecidableEq

/-- createBooking (src/services/adminService.ts lines 38-68) over an
explicit bookings table and insert outcome: on success the one payload row
is appended and true returned; on a backend error or a thrown exception
nothing is inserted and false is returned. -/
def createBooking (data : BookingData) (userId : Option String)
    (o : InsertOutcome) (table : List BookingPayload) : Bool × List BookingPayload :=
  match o with
  | .ok => (true, table ++ [bookingPayload data userId])
  | .err => (false, table)
  | .thrown => (false, table)

/-- A destinations table row as selected by getDestinations; created_at
is the backend's creation timestamp used by the order clause. -/
structure DestinationRow where
  id : String
  created_at : Nat
  name : String
  region : String
  season : String
  description : String
  image : String
deriving DecidableEq

/-- Outcome of one backend select call: success, an error value returned,
or the call throwing. -/
inductive FetchOutcome where
  | ok : FetchOutcome
  | err : FetchOutcome
  | thrown : FetchOutcome
deriving DecidableEq

/-- Backend evaluation of select-all with order by created_at ascending,
as requested by getDestinations and getPackages. -/
def selectAllOrdered {α : Type} (key : α → Nat) (table : List α) : List α :=
  table.insertionSort (fun a b => key a ≤ key b)

/-- getDestinations (src/services/adminService.ts lines 213-230): the
ordered rows on success, the empty list on a backend error (line 222) or
a thrown exception (line 228). -/
def getDestinations (table : List DestinationRow) (o : FetchOutcome) :
    List DestinationRow :=
  match o with
  | .ok => selectAllOrdered (fun r => r.created_at) table
  | .err => []
  | .thrown => []

end AdminService

namespace PackageService

/-- A packages table row as selected by getPackages. -/
structure PackageRow where
  id : String
  created_at : Nat
  name : String
  price : String
  color : String
  accent : String
  features : List String
deriving DecidableEq

/-- getPackages (package service lines 54-71): the ordered rows on
success, the empty list on a backend error or a thrown exception. -/
def getPackages (table : List PackageRow) (o : AdminService.FetchOutcome) :
    List PackageRow :=
  match o with
  | .ok => AdminService.selectAllOrdered (fun r => r.created_at) table
  | .err => []
  | .thrown => []

end PackageService

namespace CustomerService

/-- One row of the wishlist table: the backend row id and the pair of
foreign keys. -/
structure WishlistRow where
  id : Nat
  user_id : String
  package_id : String
deriving DecidableEq

/-- The wishlist table together with the backend's counter for fresh row
ids. -/
structure WishlistDB where
  rows : List WishlistRow
  nextId : Nat
deriving DecidableEq

/-- The two .eq filters of the select in toggleWishlist: rows of the given
(user, package) pair. -/
def rowMatches (userId packageId : String) (r : WishlistRow) : Bool :=
  r.user_id == userId && r.package_id == packageId

/-- supabase select().eq().eq().single(): data holds the row exactly when
precisely one row matches; with zero or several matching rows single()
reports an error and data is null. -/
def selectSingle (db : WishlistDB) (userId packageId : String) : Option WishlistRow :=
  match db.rows.filter (rowMatches userId packageId) with
  | [r] => some r
  | _ => none

/-- supabase delete().eq on the id column
(src/services/customerService.ts line 24). -/
def deleteById (db : WishlistDB) (i : Nat) : WishlistDB :=
  { db with rows := db.rows.filter (fun r => !(r.id == i)) }

/-- supabase insert of one new wishlist row
(src/services/customerService.ts line 28); the backend assigns the fresh
row id. -/
def insertRow (db : WishlistDB) (userId packageId : String) : WishlistDB :=
  { rows := db.rows ++ [⟨db.nextId, userId, packageId⟩], nextId := db.nextId + 1 }

/-- toggleWishlist (src/services/customerService.ts lines 12-35) under a
backend whose read, insert and delete calls each complete: read the pair
with single(), then delete the found row or insert a fresh one, returning
the new membership flag alongside the updated table. -/
def toggleWishlist (db : WishlistDB) (userId packageId : String) :
    Bool × WishlistDB :=
  match selectSingle db userId packageId with
  | some existing => (false, deleteById db existing.id)
  | none => (true, insertRow db userId packageId)

/-- Wishlist membership of a (user, package) pair: some row for the pair
is in the table. -/
def inWishlist (db : WishlistDB) (userId packageId : String) : Bool :=
  db.rows.any (rowMatches userId packageId)

theorem inWishlist_eq_false_iff (db : WishlistDB) (u p : String) :
    inWishlist db u p = false ↔ db.rows.filter (rowMatches u p) = [] := by
  simp [inWishlist, List.any_eq_false, List.filter_eq_nil_iff]

theorem filter_deleteById (db : WishlistDB) (u p : String) (i : Nat) :
    (deleteById db i).rows.filter (rowMatches u p)
      = (db.rows.filter (rowMatches u p)).filter (fun r => !(r.id == i)) := by
  simp only [deleteById]
  rw [List.filter_filter, List.filter_filter]
  exact List.filter_congr (fun r _ => by rw [Bool.and_comm])

theorem rowMatches_insert (db : WishlistDB) (u p : String) :
    rowMatches u p ⟨db.nextId, u, p⟩ = true := by
  simp [rowMatches]

/-- Membership after a deletion justified by a singleton read: gone. -/
theorem inWishlist_after_delete (db : WishlistDB) (u p : String) (r : WishlistRow)
    (h : db.rows.filter (rowMatches u p) = [r]) :
    inWishlist (deleteById db r.id) u p = false := by
  rw [inWishlist_eq_false_iff, filter_deleteById, h]
  simp

/-- Membership after an insertion of the pair: present. -/
theorem inWishlist_after_insert (db : WishlistDB) (u p : String) :
    inWishlist (insertRow db u p) u p = true := by
  simp [inWishlist, insertRow, rowMatches]

end CustomerService

namespace App

/-- Destination (src/types.ts lines 7-14). -/
structure Destination where
  id : String
  name : String
  region : String
  image : String
  season : String
  description : String
deriving DecidableEq

/-- The slice of the App component state that navigateDestination reads
and writes (src/App.tsx): the loaded destination list and the currently
selected destination. -/
structure AppState where
  destinations : List Destination
  selectedDestination : Option Destination
deriving DecidableEq

/-- The direction argument of navigateDestination. -/
inductive NavDirection where
  | next : NavDirection
  | prev : NavDirection
deriving DecidableEq

/-- JS Array.prototype.findIndex: the index of the first match, -1 when
there is none. -/
def jsFindIndex (l : List Destination) (targetId : String) : Int :=
  match l.findIdx? (fun a => a.id == targetId) with
  | some i => (i : Int)
  | none => -1

/-- JS array indexing with an integer index: undefined outside range. -/
def jsArrayGet (l : List Destination) (i : Int) : Option Destination :=
  if 0 ≤ i then l.get? i.toNat else none

/-- navigateDestination (src/App.tsx lines 148-158): return unchanged
when nothing is selected or the list is empty; otherwise wrap the index
of the selected id with the JS remainder, one step forward or backward.
JS % is the truncated remainder, Int.tmod. -/
def navigateDestination (s : AppState) (dir : NavDirection) : AppState :=
  match s.selectedDestination with
  | none => s
  | some sel =>
    if s.destinations.length = 0 then s
    else
      let currentIndex := jsFindIndex s.destinations sel.id
      let len : Int := s.destinations.length
      let nextIndex : Int :=
        match dir with
        | .next => (currentIndex + 1).tmod len
        | .prev => (currentIndex - 1 + len).tmod len
      { s with selectedDestination := jsArrayGet s.destinations nextIndex }

theorem findIdx?_bound {α : Type} (pred : α → Bool) :
    ∀ (l : List α) (j i : Nat), l.findIdx? pred j = some i →
      j ≤ i ∧ i - j < l.length := by
  intro l
  induction l with
  | nil =>
    intro j i h
    simp [List.findIdx?_nil] at h
  | cons x xs ih =>
    intro j i h
    rw [List.findIdx?_cons] at h
    by_cases hp : pred x = true
    · rw [if_pos hp] at h
      have : j = i := Option.some_injective _ h
      simp [List.length_cons]
      omega
    · rw [if_neg hp] at h
      have := ih (j + 1) i h
      simp only [List.length_cons]
      omega

theorem findIdx?_lt_length {α : Type} (pred : α → Bool) (l : List α) (i : Nat)
    (h : l.findIdx? pred = some i) : i < l.length := by
  have := findIdx?_bound pred l 0 i h
  omega

/-- Range of the two wrapped indices computed by navigateDestination, for
any current index at least -1 and any positive length. -/
theorem wrap_index_bounds (c len : Int) (hc : -1 ≤ c) (hlen : 1 ≤ len) :
    (0 ≤ (c + 1).tmod len ∧ (c + 1).tmod len < len)
    ∧ (0 ≤ (c - 1 + len).tmod len ∧ (c - 1 + len).tmod len < len) := by
  constructor
  · rw [Int.tmod_eq_emod (by omega) (by omega)]
    exact ⟨Int.emod_nonneg _ (by omega), Int.emod_lt_of_pos _ (by omega)⟩
  · by_cases h2 : 0 ≤ c - 1 + len
    · rw [Int.tmod_eq_emod h2 (by omega)]
      exact ⟨Int.emod_nonneg _ (by omega), Int.emod_lt_of_pos _ (by omega)⟩
    · have hc1 : c = -1 := by omega
      have hlen1 : len = 1 := by omega
      rw [hc1, hlen1]
      decide

theorem tmod_natCast (a b : Nat) :
    ((a : Int)).tmod (b : Int) = ((a % b : Nat) : Int) := by
  rw [Int.tmod_eq_emod (Int.natCast_nonneg a) (Int.natCast_nonneg b)]
  exact (Int.ofNat_emod a b).symm

theorem jsArrayGet_natCast (l : List Destination) (m : Nat) :
    jsArrayGet l (m : Int) = l.get? m := by
  simp [jsArrayGet]

end App

namespace CustomerService

theorem selectSingle_eq_some_iff (db : WishlistDB) (u p : String) (r : WishlistRow) :
    selectSingle db u p = some r ↔ db.rows.filter (rowMatches u p) = [r] := by
  unfold selectSingle
  cases h : db.rows.filter (rowMatches u p) with
  | nil => simp
  | cons a l =>
    cases l with
    | nil => simp
    | cons b l2 => simp

end CustomerService

namespace Claims

open JsStr AuthService AdminService PackageService AdminPanel CustomerService App

/-- C1: the synthesized email is the username lower-cased with all
characters outside [a-z0-9] removed, followed by the fixed suffix
'@unexplore.com'; it is a pure function of the username alone, sign-up
and sign-in derive the identical email for the same username, and any two
usernames with the same normalization collide on the same email. -/
theorem synthesized_email_spec :
    (∀ u : List Char, getEmailFromUsername u =
      (u.map Char.toLower).filter isLowerAlnum ++ "@unexplore.com".toList)
    ∧ (∀ d : RegisterData, signUpEmail d = signInEmail d.username)
    ∧ (∀ u v : List Char,
        (u.map Char.toLower).filter isLowerAlnum
          = (v.map Char.toLower).filter isLowerAlnum →
        getEmailFromUsername u = getEmailFromUsername v) := by
  refine ⟨fun u => rfl, fun d => rfl, fun u v h => ?_⟩
  simp only [getEmailFromUsername, stripNonAlnum, jsToLower]
  rw [h]

/-- C1 witness: two distinct usernames normalizing alike get the same
email, at the concrete pair "User_1" and "u!ser1". -/
theorem synthesized_email_spec_witness :
    getEmailFromUsername "User_1".toList = getEmailFromUsername "u!ser1".toList :=
  synthesized_email_spec.2.2 "User_1".toList "u!ser1".toList (by decide)

/-- C6: feature parsing splits the textarea input on newline, discards at
save time every line that is blank after trimming and preserves the order
of the remaining lines; on "A\n\nB\n" the stored sequence is ["A", "B"]. -/
theorem feature_parsing_spec :
    parsedFeatures "A\n\nB\n".toList = ["A".toList, "B".toList]
    ∧ (∀ t, parsedFeatures t =
        (splitOnChar '\n' t).filter (fun f => !(jsTrim f).isEmpty))
    ∧ (∀ t, (parsedFeatures t).Sublist (splitOnChar '\n' t))
    ∧ (∀ t f, f ∈ parsedFeatures t → jsTrim f ≠ []) := by
  refine ⟨by decide, fun t => rfl, fun t => List.filter_sublist _, fun t f hf => ?_⟩
  have h := (List.mem_filter.mp hf).2
  simpa [List.isEmpty_iff] using h

/-- C6 witness: the universally quantified conjuncts at the concrete
input "A\n\nB\n" and the kept line "A". -/
theorem feature_parsing_spec_witness :
    (parsedFeatures "A\n\nB\n".toList).Sublist (splitOnChar '\n' "A\n\nB\n".toList)
    ∧ jsTrim "A".toList ≠ [] :=
  ⟨feature_parsing_spec.2.2.1 "A\n\nB\n".toList,
   feature_parsing_spec.2.2.2 "A\n\nB\n".toList "A".toList (by decide)⟩

/-- C8: for every credential pair other than ('admin', 'himalayas123'),
checkAuth returns false and handleLogin leaves the stored flag and the
isLoggedIn state unchanged; and whenever handleLogin results in an
authenticated flag that was not already set, checkAuth accepted. -/
theorem admin_login_reject_spec (u p : String) (s : PanelState)
    (h : ¬(u = "admin" ∧ p = "himalayas123")) :
    checkAuth u p = false
    ∧ (handleLogin u p s).storage = s.storage
    ∧ (handleLogin u p s).isLoggedIn = s.isLoggedIn
    ∧ (∀ u' p' s', isAuthenticated (handleLogin u' p' s').storage = true →
        checkAuth u' p' = true ∨ isAuthenticated s'.storage = true) := by
  have hfalse : checkAuth u p = false := by
    simp only [checkAuth, Bool.and_eq_false_iff, beq_eq_false_iff_ne, ne_eq]
    by_cases hu : u = "admin"
    · right
      intro hp
      exact h ⟨hu, hp⟩
    · left
      exact hu
  refine ⟨hfalse, ?_, ?_, ?_⟩
  · simp [handleLogin, hfalse]
  · simp [handleLogin, hfalse]
  · intro u' p' s' hauth
    by_cases hc : checkAuth u' p' = true
    · exact Or.inl hc
    · right
      simp only [Bool.not_eq_true] at hc
      simpa [handleLogin, hc] using hauth

/-- C8 witness: the rejection behaviour at the concrete wrong pair
("admin", "wrong") on a logged-out panel state. -/
theorem admin_login_reject_spec_witness :
    checkAuth "admin" "wrong" = false
    ∧ (handleLogin "admin" "wrong" ⟨⟨none⟩, false, ""⟩).storage = (⟨none⟩ : LocalStorage)
    ∧ (handleLogin "admin" "wrong" ⟨⟨none⟩, false, ""⟩).isLoggedIn = false := by
  have h := admin_login_reject_spec "admin" "wrong" ⟨⟨none⟩, false, ""⟩ (by decide)
  exact ⟨h.1, h.2.1, h.2.2.1⟩

/-- C9: savePackage stores color equal to the submitted theme key and
accent equal to the bundle THEME_MAP assigns to that key, falling back to
the white bundle for any unknown key; the persisted accent is always one
of the three fixed bundle strings. -/
theorem savePackage_theme_spec (pkg : PackageInput) :
    (savePackagePayload pkg).color = pkg.theme
    ∧ (∀ st, THEME_MAP pkg.theme = some st → (savePackagePayload pkg).accent = st.accent)
    ∧ (THEME_MAP pkg.theme = none → (savePackagePayload pkg).accent = "bg-white/5")
    ∧ ((savePackagePayload pkg).accent = "bg-white/5"
       ∨ (savePackagePayload pkg).accent = "bg-[#4fb7b3]/10 border-[#4fb7b3]/50"
       ∨ (savePackagePayload pkg).accent = "bg-[#637ab9]/10 border-[#637ab9]/50") := by
  refine ⟨rfl, fun st hst => ?_, fun hnone => ?_, ?_⟩
  · simp [savePackagePayload, hst]
  · simp [savePackagePayload, hnone]
  · by_cases h1 : pkg.theme = "white"
    · simp [savePackagePayload, THEME_MAP, h1]
    · by_cases h2 : pkg.theme = "teal"
      · simp [savePackagePayload, THEME_MAP, h1, h2]
      · by_cases h3 : pkg.theme = "periwinkle"
        · simp [savePackagePayload, THEME_MAP, h1, h2, h3]
        · simp [savePackagePayload, THEME_MAP, h1, h2, h3]

/-- C9 witness: the fallback at the concrete unknown theme key
"lavender" resolves to the white bundle's accent. -/
theorem savePackage_theme_spec_witness :
    (savePackagePayload ⟨none, "n", "0", "lavender", []⟩).accent = "bg-white/5" :=
  (savePackage_theme_spec ⟨none, "n", "0", "lavender", []⟩).2.2.1 (by decide)

/-- C4: when the backend insert succeeds createBooking returns true and
appends exactly one new record whose status is the literal 'pending';
when the insert returns an error or throws, it returns false and the
table is unchanged. -/
theorem createBooking_spec (data : BookingData) (userId : Option String)
    (table : List BookingPayload) :
    (createBooking data userId .ok table).1 = true
    ∧ (createBooking data userId .ok table).2 = table ++ [bookingPayload data userId]
    ∧ (bookingPayload data userId).status = "pending"
    ∧ (∀ o, o ≠ InsertOutcome.ok →
        (createBooking data userId o table).1 = false
        ∧ (createBooking data userId o table).2 = table) := by
  refine ⟨rfl, rfl, rfl, fun o ho => ?_⟩
  cases o with
  | ok => exact absurd rfl ho
  | err => exact ⟨rfl, rfl⟩
  | thrown => exact ⟨rfl, rfl⟩

/-- C4 witness: the failure branch at a concrete booking and an erroring
backend leaves the table unchanged and reports false. -/
theorem createBooking_spec_witness :
    (createBooking ⟨"a", "1", 2, "d", "p", "n"⟩ none .err []).1 = false
    ∧ (createBooking ⟨"a", "1", 2, "d", "p", "n"⟩ none .err []).2 = [] :=
  (createBooking_spec ⟨"a", "1", 2, "d", "p", "n"⟩ none []).2.2.2 .err (by decide)

/-- C5: on a backend error or a thrown exception both catalog list calls
return the empty sequence instead of an error; on success they return the
records ordered by creation time ascending; and a failed fetch is
indistinguishable from a successful fetch of an empty table. -/
theorem catalog_list_spec :
    (∀ (table : List DestinationRow) o, o ≠ FetchOutcome.ok →
        getDestinations table o = [])
    ∧ (∀ (table : List PackageRow) o, o ≠ FetchOutcome.ok →
        getPackages table o = [])
    ∧ (∀ table : List DestinationRow, List.Sorted
        (fun a b => a.created_at ≤ b.created_at) (getDestinations table .ok))
    ∧ (∀ table : List PackageRow, List.Sorted
        (fun a b => a.created_at ≤ b.created_at) (getPackages table .ok))
    ∧ (∀ (table : List DestinationRow) o, o ≠ FetchOutcome.ok →
        getDestinations table o = getDestinations [] .ok)
    ∧ (∀ (table : List PackageRow) o, o ≠ FetchOutcome.ok →
        getPackages table o = getPackages [] .ok) := by
  have hdest : ∀ (table : List DestinationRow) o, o ≠ FetchOutcome.ok →
      getDestinations table o = [] := by
    intro table o ho
    cases o with
    | ok => exact absurd rfl ho
    | err => rfl
    | thrown => rfl
  have hpkg : ∀ (table : List PackageRow) o, o ≠ FetchOutcome.ok →
      getPackages table o = [] := by
    intro table o ho
    cases o with
    | ok => exact absurd rfl ho
    | err => rfl
    | thrown => rfl
  refine ⟨hdest, hpkg, ?_, ?_, ?_, ?_⟩
  · intro table
    haveI : IsTotal DestinationRow (fun a b => a.created_at ≤ b.created_at) :=
      ⟨fun a b => Nat.le_total a.created_at b.created_at⟩
    haveI : IsTrans DestinationRow (fun a b => a.created_at ≤ b.created_at) :=
      ⟨fun _ _ _ hab hbc => Nat.le_trans hab hbc⟩
    exact List.sorted_insertionSort _ table
  · intro table
    haveI : IsTotal PackageRow (fun a b => a.created_at ≤ b.created_at) :=
      ⟨fun a b => Nat.le_total a.created_at b.created_at⟩
    haveI : IsTrans PackageRow (fun a b => a.created_at ≤ b.created_at) :=
      ⟨fun _ _ _ hab hbc => Nat.le_trans hab hbc⟩
    exact List.sorted_insertionSort _ table
  · intro table o ho
    rw [hdest table o ho]
    rfl
  · intro table o ho
    rw [hpkg table o ho]
    rfl

/-- C5 witness: a failed destination fetch over a concrete one-row table
returns the empty list, equal to a successful fetch of the empty table. -/
theorem catalog_list_spec_witness :
    getDestinations [⟨"d1", 5, "n", "r", "s", "de", "i"⟩] .err = []
    ∧ getDestinations [⟨"d1", 5, "n", "r", "s", "de", "i"⟩] .err
        = getDestinations [] .ok :=
  ⟨catalog_list_spec.1 [⟨"d1", 5, "n", "r", "s", "de", "i"⟩] .err (by decide),
   catalog_list_spec.2.2.2.2.1 [⟨"d1", 5, "n", "r", "s", "de", "i"⟩] .err (by decide)⟩

/-- C3: toggleWishlist reads whether a row for the pair exists, deletes
the found row when the read finds one and inserts a new row when it finds
none, and its boolean return value equals the membership state of the
pair after the call. -/
theorem toggleWishlist_contract (db : WishlistDB) (u p : String) :
    (toggleWishlist db u p).1 = inWishlist (toggleWishlist db u p).2 u p
    ∧ (inWishlist db u p = false →
        toggleWishlist db u p = (true, insertRow db u p))
    ∧ (∀ r, db.rows.filter (rowMatches u p) = [r] →
        toggleWishlist db u p = (false, deleteById db r.id)) := by
  refine ⟨?_, ?_, ?_⟩
  · cases hsel : selectSingle db u p with
    | some r =>
      have hfilter := (selectSingle_eq_some_iff db u p r).mp hsel
      simp [toggleWishlist, hsel, inWishlist_after_delete db u p r hfilter]
    | none =>
      simp [toggleWishlist, hsel, inWishlist_after_insert]
  · intro hmem
    have hfilter := (inWishlist_eq_false_iff db u p).mp hmem
    have hsel : selectSingle db u p = none := by
      unfold selectSingle
      rw [hfilter]
    simp [toggleWishlist, hsel]
  · intro r hfilter
    have hsel := (selectSingle_eq_some_iff db u p r).mpr hfilter
    simp [toggleWishlist, hsel]

/-- C3 witness: toggling a concrete pair on the empty table inserts it
and reports the new membership true. -/
theorem toggleWishlist_contract_witness :
    toggleWishlist ⟨[], 0⟩ "u1" "p1" = (true, insertRow ⟨[], 0⟩ "u1" "p1")
    ∧ (toggleWishlist ⟨[], 0⟩ "u1" "p1").1
        = inWishlist (toggleWishlist ⟨[], 0⟩ "u1" "p1").2 "u1" "p1" :=
  ⟨(toggleWishlist_contract ⟨[], 0⟩ "u1" "p1").2.1 (by decide),
   (toggleWishlist_contract ⟨[], 0⟩ "u1" "p1").1⟩

/-- C2: under sequential execution with a backend whose reads, inserts
and deletes each complete, toggling the same (user, package) pair twice
leaves the pair's wishlist membership equal to its state before the first
call. -/
theorem toggleWishlist_involution (db : WishlistDB) (u p : String) :
    inWishlist (toggleWishlist (toggleWishlist db u p).2 u p).2 u p
      = inWishlist db u p := by
  cases hsel : selectSingle db u p with
  | some r =>
    have hfilter := (selectSingle_eq_some_iff db u p r).mp hsel
    have hmem : inWishlist db u p = true := by
      have hr : r ∈ db.rows.filter (rowMatches u p) := by
        rw [hfilter]
        exact List.mem_singleton.mpr rfl
      simp only [inWishlist, List.any_eq_true]
      exact ⟨r, (List.mem_filter.mp hr).1, (List.mem_filter.mp hr).2⟩
    have hdb1 : (toggleWishlist db u p).2 = deleteById db r.id := by
      simp [toggleWishlist, hsel]
    have hafter := inWishlist_after_delete db u p r hfilter
    have hsel1 : selectSingle (deleteById db r.id) u p = none := by
      unfold selectSingle
      rw [(inWishlist_eq_false_iff _ u p).mp hafter]
    rw [hdb1]
    simp [toggleWishlist, hsel1, inWishlist_after_insert, hmem]
  | none =>
    have hdb1 : (toggleWishlist db u p).2 = insertRow db u p := by
      simp [toggleWishlist, hsel]
    have hfins : (insertRow db u p).rows.filter (rowMatches u p)
        = db.rows.filter (rowMatches u p) ++ [⟨db.nextId, u, p⟩] := by
      simp [insertRow, List.filter_append, rowMatches]
    rw [hdb1]
    cases hf : db.rows.filter (rowMatches u p) with
    | nil =>
      have hmem0 : inWishlist db u p = false := (inWishlist_eq_false_iff db u p).mpr hf
      have hfins1 : (insertRow db u p).rows.filter (rowMatches u p)
          = [⟨db.nextId, u, p⟩] := by
        rw [hfins, hf]
        rfl
      have hsel1 : selectSingle (insertRow db u p) u p = some ⟨db.nextId, u, p⟩ :=
        (selectSingle_eq_some_iff _ u p _).mpr hfins1
      have hafter := inWishlist_after_delete (insertRow db u p) u p ⟨db.nextId, u, p⟩ hfins1
      simp only [toggleWishlist, hsel1]
      rw [hafter, hmem0]
    | cons a l =>
      cases l with
      | nil =>
        exact absurd hsel (by rw [(selectSingle_eq_some_iff db u p a).mpr hf]; simp)
      | cons b l2 =>
        have hmem : inWishlist db u p = true := by
          have ha : a ∈ db.rows.filter (rowMatches u p) := by
            rw [hf]
            exact List.mem_cons_self a _
          simp only [inWishlist, List.any_eq_true]
          exact ⟨a, (List.mem_filter.mp ha).1, (List.mem_filter.mp ha).2⟩
        have hsel1 : selectSingle (insertRow db u p) u p = none := by
          unfold selectSingle
          rw [hfins, hf]
          rfl
        simp only [toggleWishlist, hsel1]
        rw [inWishlist_after_insert, hmem]

/-- C7: with a nonempty loaded destination list of length n and the
selected destination found at index i, navigating next selects the
destination at index (i + 1) mod n and navigating prev the one at index
(i - 1 + n) mod n. -/
theorem navigateDestination_wraps (s : AppState) (sel : App.Destination) (i : Nat)
    (hsel : s.selectedDestination = some sel)
    (hfind : s.destinations.findIdx? (fun a => a.id == sel.id) = some i) :
    (navigateDestination s .next).selectedDestination
      = s.destinations.get? ((i + 1) % s.destinations.length)
    ∧ (navigateDestination s .prev).selectedDestination
      = s.destinations.get?
          ((i + s.destinations.length - 1) % s.destinations.length) := by
  have hi : i < s.destinations.length := findIdx?_lt_length _ _ _ hfind
  have hn : ¬s.destinations.length = 0 := by omega
  have hcur : jsFindIndex s.destinations sel.id = (i : Int) := by
    unfold jsFindIndex
    rw [hfind]
  constructor
  · have hstep : ((i : Int) + 1).tmod (s.destinations.length : Int)
        = (((i + 1) % s.destinations.length : Nat) : Int) := by
      have h1 : ((i : Int) + 1) = ((i + 1 : Nat) : Int) := by omega
      rw [h1, tmod_natCast]
    simp only [navigateDestination, hsel, if_neg hn, hcur, hstep, jsArrayGet_natCast]
  · have hstep : ((i : Int) - 1 + (s.destinations.length : Int)).tmod
          (s.destinations.length : Int)
        = (((i + s.destinations.length - 1) % s.destinations.length : Nat) : Int) := by
      have h1 : ((i : Int) - 1 + (s.destinations.length : Int))
          = ((i + s.destinations.length - 1 : Nat) : Int) := by omega
      rw [h1, tmod_natCast]
    simp only [navigateDestination, hsel, if_neg hn, hcur, hstep, jsArrayGet_natCast]

/-- C7 witness: on a concrete 3-item list, prev from index 0 selects
index 2 and next from index 2 selects index 0. -/
theorem navigateDestination_wraps_witness :
    (navigateDestination
        ⟨[⟨"a", "", "", "", "", ""⟩, ⟨"b", "", "", "", "", ""⟩, ⟨"c", "", "", "", "", ""⟩],
         some ⟨"a", "", "", "", "", ""⟩⟩ .prev).selectedDestination
      = some ⟨"c", "", "", "", "", ""⟩
    ∧ (navigateDestination
        ⟨[⟨"a", "", "", "", "", ""⟩, ⟨"b", "", "", "", "", ""⟩, ⟨"c", "", "", "", "", ""⟩],
         some ⟨"c", "", "", "", "", ""⟩⟩ .next).selectedDestination
      = some ⟨"a", "", "", "", "", ""⟩ := by
  constructor
  · have h := (navigateDestination_wraps
      ⟨[⟨"a", "", "", "", "", ""⟩, ⟨"b", "", "", "", "", ""⟩, ⟨"c", "", "", "", "", ""⟩],
       some ⟨"a", "", "", "", "", ""⟩⟩ ⟨"a", "", "", "", "", ""⟩ 0 rfl (by decide)).2
    rw [h]
    decide
  · have h := (navigateDestination_wraps
      ⟨[⟨"a", "", "", "", "", ""⟩, ⟨"b", "", "", "", "", ""⟩, ⟨"c", "", "", "", "", ""⟩],
       some ⟨"c", "", "", "", "", ""⟩⟩ ⟨"c", "", "", "", "", ""⟩ 2 rfl (by decide)).1
    rw [h]
    decide

/-- C10: navigateDestination leaves the state unchanged when nothing is
selected or the loaded list is empty, and otherwise always selects an
element of the loaded list at an in-range index. -/
theorem navigateDestination_safe (s : AppState) (dir : NavDirection) :
    ((s.selectedDestination = none ∨ s.destinations = []) →
        navigateDestination s dir = s)
    ∧ (∀ sel, s.selectedDestination = some sel → s.destinations ≠ [] →
        ∃ j : Fin s.destinations.length,
          (navigateDestination s dir).selectedDestination
            = some (s.destinations.get j)) := by
  constructor
  · intro h
    cases hsel : s.selectedDestination with
    | none => simp [navigateDestination, hsel]
    | some sel =>
      have hemp : s.destinations = [] := by
        cases h with
        | inl h1 =>
          rw [hsel] at h1
          exact absurd h1 (by simp)
        | inr h2 => exact h2
      simp [navigateDestination, hsel, hemp]
  · intro sel hsel hne
    have hn : ¬s.destinations.length = 0 := by
      simpa [List.length_eq_zero] using hne
    have hc : -1 ≤ jsFindIndex s.destinations sel.id := by
      unfold jsFindIndex
      cases h : s.destinations.findIdx? (fun a => a.id == sel.id) with
      | some k =>
        simp only []
        omega
      | none => simp
    have hlen : (1 : Int) ≤ (s.destinations.length : Int) := by omega
    have hb := wrap_index_bounds (jsFindIndex s.destinations sel.id)
      (s.destinations.length : Int) hc hlen
    cases dir with
    | next =>
      have hm0 := hb.1.1
      have hmlt := hb.1.2
      have hjm : ((jsFindIndex s.destinations sel.id + 1).tmod
          (s.destinations.length : Int)).toNat < s.destinations.length := by omega
      refine ⟨⟨_, hjm⟩, ?_⟩
      simp only [navigateDestination, hsel, if_neg hn]
      simp [jsArrayGet, hm0, List.get?_eq_get hjm]
    | prev =>
      have hm0 := hb.2.1
      have hmlt := hb.2.2
      have hjm : ((jsFindIndex s.destinations sel.id - 1
          + (s.destinations.length : Int)).tmod
          (s.destinations.length : Int)).toNat < s.destinations.length := by omega
      refine ⟨⟨_, hjm⟩, ?_⟩
      simp only [navigateDestination, hsel, if_neg hn]
      simp [jsArrayGet, hm0, List.get?_eq_get hjm]

/-- C10 witness: navigateDestination is a no-op at a concrete state with
no selection, and in-range selection holds at a concrete selected state
whose selected id is absent from the list. -/
theorem navigateDestination_safe_witness :
    navigateDestination ⟨[⟨"a", "", "", "", "", ""⟩], none⟩ .next
        = ⟨[⟨"a", "", "", "", "", ""⟩], none⟩
    ∧ ∃ j : Fin ([⟨"a", "", "", "", "", ""⟩] : List App.Destination).length,
        (navigateDestination ⟨[⟨"a", "", "", "", "", ""⟩],
            some ⟨"z", "", "", "", "", ""⟩⟩ .prev).selectedDestination
          = some (([⟨"a", "", "", "", "", ""⟩] : List App.Destination).get j) :=
  ⟨(navigateDestination_safe ⟨[⟨"a", "", "", "", "", ""⟩], none⟩ .next).1 (Or.inl rfl),
   (navigateDestination_safe ⟨[⟨"a", "", "", "", "", ""⟩],
      some ⟨"z", "", "", "", "", ""⟩⟩ .prev).2 ⟨"z", "", "", "", "", ""⟩ rfl (by decide)⟩

end Claims
